import Mathlib

/-!
# Formal model of the CASS-DB-Manager speciation engine

Shallow embedding of `src/scripts/CassSpeciation.py` (class `CassSpeciation`).

Conventions of the embedding:
* machine floats are modelled by `ℚ`; division by zero yields `0` (Lean's
  convention for `ℚ`);
* a missing value (pandas `NaN` / SQL `NULL`) is `none : Option ℚ`; the float
  sentinel `-99` used by the program is the literal rational `-99`;
* timestamps are epoch seconds as `ℤ`; calendar dates are integer day numbers
  (day `d` starts at second `d * 86400`);
* the transcendental powers `(950/470)^x` and `(470/880)^x` appearing in the
  constant setup are abstracted as function fields of the configuration
  record, applied at the same arguments as the source.
-/

namespace Cass

/-! ## Shared numeric helpers -/

/-- Arithmetic mean (SQL `AVG`, `np.mean`): sum over count. -/
def avgQ (xs : List ℚ) : ℚ := xs.sum / xs.length

/-- Covariance of paired samples about their means (common scale factor of the
numerator and denominator of a Pearson correlation cancels in the squared
correlation, so the population normalisation is irrelevant below). -/
def covQ (ps : List (ℚ × ℚ)) : ℚ :=
  let mx := avgQ (ps.map Prod.fst)
  let my := avgQ (ps.map Prod.snd)
  (ps.map (fun p => (p.1 - mx) * (p.2 - my))).sum / ps.length

/-- Variance of a sample about its mean. -/
def varQ (xs : List ℚ) : ℚ :=
  let m := avgQ xs
  (xs.map (fun x => (x - m) ^ 2)).sum / xs.length

/-- Squared Pearson correlation coefficient of two equally long samples:
`corr² = cov² / (var x · var y)` (`np.corrcoef(x, y)[0, 1] ** 2`). -/
def corrSq (xs ys : List ℚ) : ℚ :=
  (covQ (xs.zip ys)) ^ 2 / (varQ xs * varQ ys)

/-- First index attaining the minimum of a list (`np.argmin` on a list of
ordinary numbers): on ties the earliest index wins. -/
def argminIdx : List ℚ → Nat
  | [] => 0
  | [_] => 0
  | x :: y :: ys =>
    if x ≤ (y :: ys).getD (argminIdx (y :: ys)) 0 then 0
    else argminIdx (y :: ys) + 1

/-- Candidate grid `[0.0, 0.1, ..., (n-1)/10]` built by
`for i in range(n): steps.append(i / 10.0)`. -/
def gridQ (n : Nat) : List ℚ :=
  (List.range n).map (fun (i : Nat) => (i : ℚ) / 10)

/-! ## Chunked regression separator
(`min_r2_calculation_for_brC`, lines 386-448, and
`min_r2_calculation_for_SOC`, lines 450-511) -/

/-- One row of the aligned hourly frame `TCA_AE_hourly`, restricted to the
fields the two regression passes read.  `t` is the `Date_and_Time` timestamp
in epoch seconds. -/
structure HRow where
  t : Int
  babs2 : Option ℚ
  babs6 : Option ℚ
  oc : Option ℚ
  ae33bc6 : Option ℚ
deriving DecidableEq

/-- A cell is usable when it is non-missing and not the `-99` sentinel
(`(col != -99) & (~col.isna())`). -/
def goodVal : Option ℚ → Bool
  | some x => decide (x ≠ -99)
  | none => false

/-- The usable values of one series inside a chunk, in row order
(`chunk[(chunk[col] != -99) & (~chunk[col].isna())][col]`). -/
def goodVals (f : HRow → Option ℚ) (chunk : List HRow) : List ℚ :=
  (chunk.filter (fun r => goodVal (f r))).map (fun r => (f r).getD 0)

/-- Positions of the usable rows of one series, counting from `n`. -/
def goodIdxFrom (f : HRow → Option ℚ) (n : Nat) : List HRow → List Nat
  | [] => []
  | r :: rs =>
    if goodVal (f r) then n :: goodIdxFrom f (n + 1) rs
    else goodIdxFrom f (n + 1) rs

/-- The row positions (pandas index labels, here: positions in the chunk) of
the usable values of one series. -/
def goodIdx (f : HRow → Option ℚ) (chunk : List HRow) : List Nat :=
  goodIdxFrom f 0 chunk

/-- Sorted union of the two usable index sets: the index of the pandas Series
`babs2_good - stp * babs6_good` (Series arithmetic aligns on the union of the
operand indexes). -/
def unionIdx (f g : HRow → Option ℚ) (chunk : List HRow) : List Nat :=
  List.insertionSort (· ≤ ·) ((goodIdx f chunk ++ goodIdx g chunk).dedup)

/-- One entry of the aligned residual Series: subtraction is defined where
both operands carry the index, `NaN` (`none`) where either is absent. -/
def residEntry (f g : HRow → Option ℚ) (c : ℚ) : Option HRow → Option ℚ
  | none => none
  | some r =>
    if goodVal (f r) && goodVal (g r) then
      some ((f r).getD 0 - c * (g r).getD 0)
    else none

/-- The residual Series as pandas computes it: one entry per index in the
union, `NaN` (`none`) wherever either operand is absent from its index. -/
def alignedResidual (f g : HRow → Option ℚ) (c : ℚ) (chunk : List HRow) :
    List (Option ℚ) :=
  (unionIdx f g chunk).map (fun i => residEntry f g c (chunk.get? i))

/-- The rows of a chunk in which BOTH series are simultaneously usable, with
their two values. -/
def jointPairs (f g : HRow → Option ℚ) (chunk : List HRow) : List (ℚ × ℚ) :=
  (chunk.filter (fun r => goodVal (f r) && goodVal (g r))).map
    (fun r => ((f r).getD 0, (g r).getD 0))

/-- Code-faithful per-candidate score
(`corr_ = np.corrcoef(brc_sec, babs6_good)[0, 1] if len(brc_sec) > 1 else 0.0`
followed by `r2_ = corr_ ** 2`): `none` stands for a non-number outcome —
`np.corrcoef` raises on operands of different lengths and yields `NaN` when a
`NaN` entry of the aligned residual participates. -/
def scoreCode (f g : HRow → Option ℚ) (chunk : List HRow) (c : ℚ) : Option ℚ :=
  let res := alignedResidual f g c chunk
  if res.length ≤ 1 then some 0
  else
    let ys := goodVals g chunk
    if res.length ≠ ys.length then none
    else if res.any (fun o => o.isNone) then none
    else some (corrSq (res.map (fun o => o.getD 0)) ys)

/-- Per-candidate score over the jointly usable rows: squared Pearson
correlation of the residual `raw - c * ref` against the usable reference
values, `0` when fewer than two usable rows exist.  When the two usable index
sets of a chunk coincide this is exactly the value of the code's aligned
computation, as proved below; the selection definitions use this form. -/
def scoreAt (f g : HRow → Option ℚ) (chunk : List HRow) (c : ℚ) : ℚ :=
  if (jointPairs f g chunk).length ≤ 1 then 0
  else corrSq ((jointPairs f g chunk).map (fun p => p.1 - c * p.2))
    (goodVals g chunk)

/-- Distinct calendar days spanned by a chunk
(`chunk['Date_and_Time'].dt.date.nunique()`). -/
def uniqueDayCount (chunk : List HRow) : Nat :=
  ((chunk.map (fun r => r.t.fdiv 86400)).dedup).length

/-- Per-chunk outcome of one regression pass: `none` when the chunk is skipped
(fewer than 3 distinct calendar days, or one of the two series has no usable
value — the two `continue` branches), otherwise the grid candidate at the
first index minimising the score curve (`min_idx = np.argmin(r2_vals)`,
`min_step = steps[min_idx]`).  The score curve used here is the joint-filter
form `scoreAt`; this matches the program's pandas-aligned computation
(`scoreCode`) exactly when the chunk's two usable index sets coincide — when
they differ the program's `np.corrcoef` either raises on different-length
operands or yields `NaN` scores, and no numeric score curve exists, so this
selection models the program only under that coincidence condition. -/
def chunkCoeff (f g : HRow → Option ℚ) (grid : List ℚ) (chunk : List HRow) :
    Option ℚ :=
  if uniqueDayCount chunk < 3 then none
  else if (goodVals f chunk).isEmpty || (goodVals g chunk).isEmpty then none
  else some (grid.getD (argminIdx (grid.map (scoreAt f g chunk))) 0)

/-- Minimum of the frame's timestamps (`df['Date_and_Time'].min()`). -/
def minT (rows : List HRow) : Int :=
  match rows with
  | [] => 0
  | r :: rs => rs.foldl (fun m x => min m x.t) r.t

/-- Maximum of the frame's timestamps (`df['Date_and_Time'].max()`). -/
def maxT (rows : List HRow) : Int :=
  match rows with
  | [] => 0
  | r :: rs => rs.foldl (fun m x => max m x.t) r.t

/-- Chunk start timestamps produced by the loop
`start_ = min_dt; while start_ < max_dt: ...; start_ = start_ + Time_Delta`:
starts `minT + k * tds` for `k = 0, 1, ...` as long as the start is strictly
below `maxT` (`tds` is the chunk width `Time_Delta` in seconds). -/
def chunkStarts (minT0 maxT0 tds : Int) : List Int :=
  if tds ≤ 0 then []
  else (List.range ((maxT0 - minT0 + tds - 1) / tds).toNat).map
    (fun k => minT0 + k * tds)

/-- Rows of the chunk `[s, s + tds)`
(`df[(df['Date_and_Time'] >= start_) & (df['Date_and_Time'] < chunk_end)]`). -/
def chunkRows (rows : List HRow) (s tds : Int) : List HRow :=
  rows.filter (fun r => decide (s ≤ r.t) && decide (r.t < s + tds))

/-- The chunk (identified by its start) whose half-open window contains a
row's timestamp, among the generated chunk starts. -/
def rowChunk (tds : Int) (rows : List HRow) (r : HRow) : Option Int :=
  (chunkStarts (minT rows) (maxT rows) tds).find?
    (fun s => decide (s ≤ r.t) && decide (r.t < s + tds))

/-- One full regression pass, as the derived column it leaves on the frame:
rows of a regressable chunk receive `raw - c* · ref` for the chunk's selected
coefficient (`df.loc[mask, out] = df.loc[mask, raw] - min_step * df.loc[mask, ref]`,
with `NaN` propagating through the arithmetic), all other rows — rows of a
skipped chunk, or rows covered by no generated chunk — retain the missing
marker `NaN`, which is also what the whole column is set to when no chunk at
all was regressable. -/
def regColumn (f g : HRow → Option ℚ) (grid : List ℚ) (tds : Int)
    (rows : List HRow) : List (Option ℚ) :=
  rows.map (fun r =>
    match rowChunk tds rows r with
    | none => none
    | some s =>
      match chunkCoeff f g grid (chunkRows rows s tds) with
      | none => none
      | some c => Option.map₂ (fun a b => a - c * b) (f r) (g r))

/-- Raw signal of the brown-carbon instance: near-UV absorption `B-abs2`. -/
def rawBrC : HRow → Option ℚ := fun r => r.babs2

/-- Reference signal of the brown-carbon instance: near-IR channel `B-abs6`. -/
def refBrC : HRow → Option ℚ := fun r => r.babs6

/-- Raw signal of the organic-carbon instance: total organic carbon `OC`. -/
def rawSOC : HRow → Option ℚ := fun r => r.oc

/-- Reference signal of the organic-carbon instance: `AE33_BC6`. -/
def refSOC : HRow → Option ℚ := fun r => r.ae33bc6

/-- The `BrC-abs-Sec` column produced by `min_r2_calculation_for_brC`
(61 candidates, `range(61)`). -/
def brcSecColumn (tds : Int) (rows : List HRow) : List (Option ℚ) :=
  regColumn rawBrC refBrC (gridQ 61) tds rows

/-- The `SOC` column produced by `min_r2_calculation_for_SOC`
(101 candidates, `range(101)`). -/
def socColumn (tds : Int) (rows : List HRow) : List (Option ℚ) :=
  regColumn rawSOC refSOC (gridQ 101) tds rows

/-! ## Derived-quantity calculator (`calculate_final_columns`, lines 334-384) -/

/-- Configuration constants.  `p947` abstracts `x ↦ (950/470) ** x` and
`p478` abstracts `x ↦ (470/880) ** x`; the code applies these real powers
only at `-AAE_bb`, `-AAE_ff` and `-AAE_bc`. -/
structure Consts where
  aaeBB : ℚ
  aaeFF : ℚ
  aaeBC : ℚ
  macBB : ℚ
  macFF : ℚ
  poaPoc : ℚ
  soaSoc : ℚ
  macBrcPrim : ℚ
  macBrcSec : ℚ
  p947 : ℚ → ℚ
  p478 : ℚ → ℚ

/-- Wavelength factor `(950/470) ** (-AAE_ff)`. -/
def pFF (k : Consts) : ℚ := k.p947 (-k.aaeFF)

/-- Wavelength factor `(950/470) ** (-AAE_bb)`. -/
def pBB (k : Consts) : ℚ := k.p947 (-k.aaeBB)

/-- Shared denominator of the `B-abs-ff` and `B-abs-bb` formulas (line 340):
`(950/470)**(-AAE_ff) - (950/470)**(-AAE_bb)`, used without a zero guard. -/
def denFF (k : Consts) : ℚ := pFF k - pBB k

/-- One row of the frame entering `calculate_final_columns`: the scaled
absorption channels involved in the formulas, the TCA aggregates, and the two
separated columns written by the regression passes (possibly missing). -/
structure RowF where
  babs2 : ℚ
  babs6 : ℚ
  babs7 : ℚ
  tcconc : Option ℚ
  co2 : ℚ
  ec : ℚ
  oc : ℚ
  ae33bc6 : ℚ
  soc : Option ℚ
  brcSec : Option ℚ
deriving DecidableEq

/-- One row after the derived-quantity pass. -/
structure RowOut where
  babs2 : ℚ
  babs6 : ℚ
  babs7 : ℚ
  tcconc : Option ℚ
  co2 : ℚ
  ec : ℚ
  oc : ℚ
  ae33bc6 : ℚ
  babsFF : ℚ
  babsBB : ℚ
  bcFF : ℚ
  bcBB : ℚ
  babsBC : ℚ
  babsBrC : ℚ
  brC : ℚ
  soc : Option ℚ
  poc : Option ℚ
  poa : Option ℚ
  soa : Option ℚ
  brcSec : Option ℚ
  brcPrim : Option ℚ
  poaBrC : Option ℚ
  soaBrC : Option ℚ
  poaWtC : Option ℚ
  soaWtC : Option ℚ
deriving DecidableEq

/-- Row-wise closed-form formula block of `calculate_final_columns`
(lines 338-366), before the sentinel-propagation loop.  Formulas involving a
possibly-missing operand (`SOC`, `BrC-abs-Sec`) propagate `NaN` as pandas
arithmetic does. -/
def computeDerived (k : Consts) (r : RowF) : RowOut :=
  let babsFF := (r.babs7 - r.babs2 * pBB k) / denFF k
  let babsBB := (r.babs7 - r.babs2 * pFF k) / denFF k
  let part2 := k.macFF / k.macBB
  let part3nm := 1 - (r.babs2 / r.babs7) * pFF k
  let part3dm := 1 - (r.babs2 / r.babs7) * pBB k
  let bcffFrac := 1 / (1 - part2 * (part3nm / part3dm))
  let bcFF := r.ae33bc6 * bcffFrac
  let babsBC := r.babs6 * k.p478 (-k.aaeBC)
  let babsBrC := r.babs2 - babsBC
  let poc := r.soc.map (fun s => r.oc - s)
  let poa := poc.map (fun x => x * k.poaPoc)
  let soa := r.soc.map (fun s => s * k.soaSoc)
  let brcPrim := r.brcSec.map (fun s => babsBrC - s)
  let poaBrC := brcPrim.map (fun x => x / k.macBrcPrim)
  let soaBrC := r.brcSec.map (fun s => s / k.macBrcSec)
  { babs2 := r.babs2
    babs6 := r.babs6
    babs7 := r.babs7
    tcconc := r.tcconc
    co2 := r.co2
    ec := r.ec
    oc := r.oc
    ae33bc6 := r.ae33bc6
    babsFF := babsFF
    babsBB := babsBB
    bcFF := bcFF
    bcBB := r.ae33bc6 - bcFF
    babsBC := babsBC
    babsBrC := babsBrC
    brC := r.oc - r.ae33bc6
    soc := r.soc
    poc := poc
    poa := poa
    soa := soa
    brcSec := r.brcSec
    brcPrim := brcPrim
    poaBrC := poaBrC
    soaBrC := soaBrC
    poaWtC := Option.map₂ (fun a b => a - b) poa poaBrC
    soaWtC := Option.map₂ (fun a b => a - b) soa soaBrC }

/-- First sentinel rule's condition (line 369):
`(row['B-abs7'] == -99) or (row['B-abs2'] == -99)`, read off the row as it
stood when the loop snapshot was taken. -/
def cond1 (r : RowOut) : Bool := decide (r.babs7 = -99) || decide (r.babs2 = -99)

/-- Second sentinel rule's condition (line 378):
`pd.isna(row['TCconc']) or (row['TCconc'] == -99)`. -/
def cond2 (r : RowOut) : Bool :=
  decide (r.tcconc = none) || decide (r.tcconc = some (-99))

/-- First sentinel rule (lines 369-376): force the seven
absorption-apportionment columns to `-99`. -/
def applyRule1 (r : RowOut) : RowOut :=
  if cond1 r then
    { r with babsBB := -99, babsFF := -99, bcFF := -99, bcBB := -99,
             babsBrC := -99, babsBC := -99, brcSec := some (-99) }
  else r

/-- Second sentinel rule (lines 378-384), applied after the first and reading
its condition from the pre-pass snapshot: force the eighteen carbon columns to
`-99`. -/
def applyRule2 (snapshot r : RowOut) : RowOut :=
  if cond2 snapshot then
    { r with soc := some (-99), poc := some (-99), soa := some (-99),
             poa := some (-99), ae33bc6 := -99, brC := -99,
             brcSec := some (-99), brcPrim := some (-99),
             poaBrC := some (-99), soaBrC := some (-99),
             poaWtC := some (-99), soaWtC := some (-99),
             tcconc := some (-99), co2 := -99, ec := -99, oc := -99,
             bcFF := -99, bcBB := -99 }
  else r

/-- The imperative sentinel-propagation loop (lines 368-384) on one row: both
conditions read the loop's row snapshot; rule 2 runs second and may override
columns rule 1 already set. -/
def sentinelPass (r : RowOut) : RowOut := applyRule2 r (applyRule1 r)

/-- The whole of `calculate_final_columns` on one row, given the two separated
columns already present in the row. -/
def calcFinalRow (k : Consts) (r : RowF) : RowOut :=
  sentinelPass (computeDerived k r)

/-- The post-pass derived column (run, line 174):
`df['B-abs6_Val'] = df['AE33_BC6'] * 7.77 / 1000`, computed after
`calculate_final_columns` has run. -/
def babs6Val (k : Consts) (r : RowF) : ℚ :=
  (calcFinalRow k r).ae33bc6 * (777 / 100) / 1000

/-! ## Analysis-window extension and final filter
(`__init__` lines 103-111, `run` lines 176-179) -/

/-- End-date extension: with `days = end - start + 1` and
`rem = days % Time_Delta`, a nonzero remainder extends the end date by
`Time_Delta - rem` days.  Dates are integer day numbers. -/
def extendEnd (startD endD td : Int) : Int :=
  let days := endD - startD + 1
  let rem := days % td
  if rem ≠ 0 then endD + (td - rem) else endD

/-- The final window filter of `run`: the object attribute `end_date` holds
the EXTENDED end date (reassigned in `__init__`), so the emitted frame keeps
every timestamp between the start midnight and the extended end midnight,
inclusive. -/
def emittedTimes (ts : List Int) (startD endD td : Int) : List Int :=
  ts.filter (fun t =>
    decide (startD * 86400 ≤ t) && decide (t ≤ extendEnd startD endD td * 86400))

/-! ## Time-bucketer (`fetch_hourly_data`, lines 265-321) -/

/-- One raw row of the thermal-carbon-analyzer table, under the RawSample
shape contract (all channels present).  `t` is `StartTimeLocal` in epoch
seconds. -/
structure TcaRow where
  t : Int
  tconc : ℚ
  co2 : ℚ
  ec : ℚ
  oc : ℚ
  bc6 : ℚ
deriving DecidableEq

/-- One raw row of the 7-channel absorption instrument's table.  `t` is the
combined `date || ' ' || time` timestamp in epoch seconds. -/
structure AeRow where
  t : Int
  bc1 : ℚ
  bc2 : ℚ
  bc3 : ℚ
  bc4 : ℚ
  bc5 : ℚ
  bc6 : ℚ
  bc7 : ℚ
deriving DecidableEq

/-- SQLite bucket key:
`(CAST(strftime('%s', ts) AS INTEGER) / interval) * interval` — integer
division truncating toward zero. -/
def bucketOf (iv t : Int) : Int := (t.tdiv iv) * iv

/-- Date-range restriction of the TCA source (`WHERE StartTimeLocal >= ... AND
StartTimeLocal < ...`), bounds in epoch seconds. -/
def tSel (lo hi : Int) (rows : List TcaRow) : List TcaRow :=
  rows.filter (fun r => decide (lo ≤ r.t) && decide (r.t < hi))

/-- Date-range restriction of the absorption source. -/
def aSel (lo hi : Int) (rows : List AeRow) : List AeRow :=
  rows.filter (fun r => decide (lo ≤ r.t) && decide (r.t < hi))

/-- Distinct bucket keys of the TCA source (`GROUP BY bucket`). -/
def tKeys (iv : Int) (rows : List TcaRow) : List Int :=
  (rows.map (fun r => bucketOf iv r.t)).dedup

/-- Distinct bucket keys of the absorption source. -/
def aKeys (iv : Int) (rows : List AeRow) : List Int :=
  (rows.map (fun r => bucketOf iv r.t)).dedup

/-- TCA rows whose truncated-to-bucket timestamp matches a bucket key. -/
def tMatch (iv b : Int) (rows : List TcaRow) : List TcaRow :=
  rows.filter (fun r => decide (bucketOf iv r.t = b))

/-- Absorption rows whose truncated-to-bucket timestamp matches a bucket key. -/
def aMatch (iv b : Int) (rows : List AeRow) : List AeRow :=
  rows.filter (fun r => decide (bucketOf iv r.t = b))

/-- One aligned channel from the TCA side: `COALESCE(t.avg_c, -99)` after the
`LEFT JOIN` — the mean over the matching rows when the source has data in the
bucket, the `-99` sentinel otherwise. -/
def fieldT (iv b : Int) (rows : List TcaRow) (f : TcaRow → ℚ) : ℚ :=
  if (tMatch iv b rows).isEmpty then -99 else avgQ ((tMatch iv b rows).map f)

/-- One aligned channel from the absorption side. -/
def fieldA (iv b : Int) (rows : List AeRow) (f : AeRow → ℚ) : ℚ :=
  if (aMatch iv b rows).isEmpty then -99 else avgQ ((aMatch iv b rows).map f)

/-- One row of the aligned frame returned by `fetch_hourly_data`. -/
structure ARow where
  bucket : Int
  tconc : ℚ
  co2 : ℚ
  ec : ℚ
  oc : ℚ
  ae33bc6 : ℚ
  bc1 : ℚ
  bc2 : ℚ
  bc3 : ℚ
  bc4 : ℚ
  bc5 : ℚ
  bc6 : ℚ
  bc7 : ℚ
deriving DecidableEq

/-- Bucket keys of the aligned frame: union of the two key sets
(`SELECT bucket FROM t UNION SELECT bucket FROM a` — set union), in ascending
order (`ORDER BY b.bucket`). -/
def alignedKeys (iv : Int) (tr : List TcaRow) (ar : List AeRow) : List Int :=
  List.insertionSort (· ≤ ·) ((tKeys iv tr ++ aKeys iv ar).dedup)

/-- The aligned record at one bucket key. -/
def mkARow (iv : Int) (tr : List TcaRow) (ar : List AeRow) (b : Int) : ARow :=
  { bucket := b
    tconc := fieldT iv b tr (fun r => r.tconc)
    co2 := fieldT iv b tr (fun r => r.co2)
    ec := fieldT iv b tr (fun r => r.ec)
    oc := fieldT iv b tr (fun r => r.oc)
    ae33bc6 := fieldT iv b tr (fun r => r.bc6)
    bc1 := fieldA iv b ar (fun r => r.bc1)
    bc2 := fieldA iv b ar (fun r => r.bc2)
    bc3 := fieldA iv b ar (fun r => r.bc3)
    bc4 := fieldA iv b ar (fun r => r.bc4)
    bc5 := fieldA iv b ar (fun r => r.bc5)
    bc6 := fieldA iv b ar (fun r => r.bc6)
    bc7 := fieldA iv b ar (fun r => r.bc7) }

/-- The aligned hourly frame of `fetch_hourly_data`: one record per bucket key
present in either range-restricted source, ordered by bucket. -/
def fetchAligned (iv lo hi : Int) (tr : List TcaRow) (ar : List AeRow) :
    List ARow :=
  (alignedKeys iv (tSel lo hi tr) (aSel lo hi ar)).map
    (mkARow iv (tSel lo hi tr) (aSel lo hi ar))

/-! ## Concrete exemplar inputs used by the witnesses and counterexamples -/

/-- A regressable 3-day chunk on which, for both regression instances, the
two series are usable on exactly the same rows. -/
def c1W : List HRow :=
  [ { t := 0, babs2 := some 1, babs6 := some 2, oc := some 1,
      ae33bc6 := some 2 },
    { t := 86400, babs2 := some 2, babs6 := some 3, oc := some 2,
      ae33bc6 := some 3 },
    { t := 172800, babs2 := some 4, babs6 := some 5, oc := some 4,
      ae33bc6 := some 5 } ]

/-- A regressable 3-day chunk whose two usable index sets differ (row 0
carries the `-99` sentinel in the reference series only), on which the
program's score computation produces no number. -/
def c1X : List HRow :=
  [ { t := 0, babs2 := some 1, babs6 := some (-99), oc := none, ae33bc6 := none },
    { t := 86400, babs2 := some 2, babs6 := some 3, oc := none, ae33bc6 := none },
    { t := 172800, babs2 := some 4, babs6 := some 5, oc := none, ae33bc6 := none } ]

/-- A regressable 3-day chunk whose two usable index sets differ: the raw
series is usable on rows 0, 1, 2 while the reference is usable only on rows
1 and 2 (row 0 carries the `-99` sentinel). -/
def c3X : List HRow :=
  [ { t := 0, babs2 := some 1, babs6 := some (-99), oc := none, ae33bc6 := none },
    { t := 86400, babs2 := some 2, babs6 := some 3, oc := none, ae33bc6 := none },
    { t := 172800, babs2 := some 4, babs6 := some 5, oc := none, ae33bc6 := none } ]

/-- A 3-day chunk on which both series are usable in every row. -/
def c3W : List HRow :=
  [ { t := 0, babs2 := some 1, babs6 := some 2, oc := none, ae33bc6 := none },
    { t := 86400, babs2 := some 2, babs6 := some 3, oc := none, ae33bc6 := none },
    { t := 172800, babs2 := some 4, babs6 := some 5, oc := none, ae33bc6 := none } ]

/-- A configuration with distinct Ångström exponents: the abstracted power
map sends `-AAE_ff = -1` to `2` and `-AAE_bb = -2` to `4`. -/
def c4K : Consts :=
  { aaeBB := 2, aaeFF := 1, aaeBC := 1, macBB := 1, macFF := 1,
    poaPoc := 1, soaSoc := 1, macBrcPrim := 1, macBrcSec := 1,
    p947 := fun x => if x = -1 then 2 else 4, p478 := fun _ => 1 }

/-- A fully non-sentinel input row for the apportionment formulas. -/
def c4R : RowF :=
  { babs2 := 3, babs6 := 1, babs7 := 10, tcconc := some 1, co2 := 1, ec := 1,
    oc := 1, ae33bc6 := 1, soc := some 1, brcSec := some 1 }

/-- A plain configuration for the sentinel-propagation exemplars. -/
def c5K : Consts :=
  { aaeBB := 1, aaeFF := 1, aaeBC := 1, macBB := 1, macFF := 1,
    poaPoc := 1, soaSoc := 1, macBrcPrim := 1, macBrcSec := 1,
    p947 := fun x => x, p478 := fun x => x }

/-- A row triggering both sentinel rules: `B-abs2` is sentinel and `TCconc`
is sentinel. -/
def c5R : RowF :=
  { babs2 := -99, babs6 := 1, babs7 := 1, tcconc := some (-99), co2 := 1,
    ec := 1, oc := 1, ae33bc6 := 1, soc := none, brcSec := none }

/-- A chunk with three distinct days and a usable value in every series. -/
def c6W : List HRow :=
  [ { t := 0, babs2 := some 1, babs6 := some 1, oc := some 1, ae33bc6 := some 1 },
    { t := 86400, babs2 := some 1, babs6 := some 1, oc := some 1, ae33bc6 := some 1 },
    { t := 172800, babs2 := some 1, babs6 := some 1, oc := some 1, ae33bc6 := some 1 } ]

/-- A frame whose single generated chunk (days 0-2) is regressable, plus a
final row at the exact 3-day boundary that no generated chunk covers. -/
def c7Rows : List HRow :=
  [ { t := 0, babs2 := some 1, babs6 := some 2, oc := none, ae33bc6 := none },
    { t := 86400, babs2 := some 1, babs6 := some 2, oc := none, ae33bc6 := none },
    { t := 172800, babs2 := some 1, babs6 := some 2, oc := none, ae33bc6 := none },
    { t := 259200, babs2 := some 1, babs6 := some 2, oc := none, ae33bc6 := none } ]

/-- A frame in which every generated chunk is skipped: the first chunk spans
only two distinct days and the second only one. -/
def c7RowsB : List HRow :=
  [ { t := 0, babs2 := some 1, babs6 := some 2, oc := none, ae33bc6 := none },
    { t := 86400, babs2 := some 1, babs6 := some 2, oc := none, ae33bc6 := none },
    { t := 345600, babs2 := some 1, babs6 := some 2, oc := none, ae33bc6 := none } ]

/-- First row of the regressable chunk of `c7Rows`. -/
def c7r0 : HRow :=
  { t := 0, babs2 := some 1, babs6 := some 2, oc := none, ae33bc6 := none }

/-- The boundary row of `c7Rows` covered by no generated chunk. -/
def c7r3 : HRow :=
  { t := 259200, babs2 := some 1, babs6 := some 2, oc := none, ae33bc6 := none }

/-- First row of `c7RowsB`, lying in a skipped chunk. -/
def c7b0 : HRow :=
  { t := 0, babs2 := some 1, babs6 := some 2, oc := none, ae33bc6 := none }

/-- A configuration with equal Ångström exponents and the identity as the
abstracted (injective) power map. -/
def c10K : Consts :=
  { aaeBB := 1, aaeFF := 1, aaeBC := 1, macBB := 1, macFF := 1,
    poaPoc := 1, soaSoc := 1, macBrcPrim := 1, macBrcSec := 1,
    p947 := fun x => x, p478 := fun x => x }

/-- A plain configuration for the post-pass column exemplar. -/
def c9K : Consts :=
  { aaeBB := 1, aaeFF := 1, aaeBC := 1, macBB := 1, macFF := 1,
    poaPoc := 1, soaSoc := 1, macBrcPrim := 1, macBrcSec := 1,
    p947 := fun x => x, p478 := fun x => x }

/-- A row whose `TCconc` is a true missing value. -/
def c9R : RowF :=
  { babs2 := 1, babs6 := 1, babs7 := 1, tcconc := none, co2 := 1, ec := 1,
    oc := 1, ae33bc6 := 1, soc := some 1, brcSec := some 1 }

/-- One raw thermal-carbon-analyzer reading at the epoch. -/
def c8T : List TcaRow :=
  [ { t := 0, tconc := 1, co2 := 1, ec := 1, oc := 1, bc6 := 1 } ]

/-- One raw absorption reading one hour later. -/
def c8A : List AeRow :=
  [ { t := 3600, bc1 := 1, bc2 := 1, bc3 := 1, bc4 := 1, bc5 := 1, bc6 := 1,
      bc7 := 1 } ]

/-! ## List and grid helper lemmas -/

theorem getD_map_q (l : List ℚ) (F : ℚ → ℚ) (j : Nat) (h : j < l.length) :
    (l.map F).getD j 0 = F (l.getD j 0) := by
  induction l generalizing j with
  | nil => simp at h
  | cons x xs ih =>
    cases j with
    | zero => rfl
    | succ n =>
      simp only [List.map_cons, List.getD_cons_succ]
      exact ih n (by simpa using h)

theorem argminIdx_lt (l : List ℚ) (h : l ≠ []) : argminIdx l < l.length := by
  induction l with
  | nil => exact absurd rfl h
  | cons x xs ih =>
    cases xs with
    | nil => simp [argminIdx]
    | cons y ys =>
      simp only [argminIdx]
      by_cases hx : x ≤ (y :: ys).getD (argminIdx (y :: ys)) 0
      · rw [if_pos hx]
        simp
      · rw [if_neg hx]
        have h2 := ih (by simp)
        simp only [List.length_cons] at h2 ⊢
        omega

theorem argminIdx_min (l : List ℚ) (j : Nat) (hj : j < l.length) :
    l.getD (argminIdx l) 0 ≤ l.getD j 0 := by
  induction l generalizing j with
  | nil => simp at hj
  | cons x xs ih =>
    cases xs with
    | nil =>
      have hj0 : j = 0 := by
        have : j < 1 := by simpa using hj
        omega
      subst hj0
      simp [argminIdx]
    | cons y ys =>
      simp only [argminIdx]
      by_cases hx : x ≤ (y :: ys).getD (argminIdx (y :: ys)) 0
      · rw [if_pos hx]
        cases j with
        | zero => exact le_refl _
        | succ n =>
          have hn : n < (y :: ys).length := by simpa using hj
          calc (x :: y :: ys).getD 0 0 = x := rfl
            _ ≤ (y :: ys).getD (argminIdx (y :: ys)) 0 := hx
            _ ≤ (y :: ys).getD n 0 := ih n hn
            _ = (x :: y :: ys).getD (n + 1) 0 := rfl
      · rw [if_neg hx]
        cases j with
        | zero =>
          calc (x :: y :: ys).getD (argminIdx (y :: ys) + 1) 0
              = (y :: ys).getD (argminIdx (y :: ys)) 0 := rfl
            _ ≤ x := le_of_not_le hx
            _ = (x :: y :: ys).getD 0 0 := rfl
        | succ n =>
          have hn : n < (y :: ys).length := by simpa using hj
          calc (x :: y :: ys).getD (argminIdx (y :: ys) + 1) 0
              = (y :: ys).getD (argminIdx (y :: ys)) 0 := rfl
            _ ≤ (y :: ys).getD n 0 := ih n hn
            _ = (x :: y :: ys).getD (n + 1) 0 := rfl

theorem argminIdx_first (l : List ℚ) (j : Nat) (hj : j < l.length)
    (hle : l.getD j 0 ≤ l.getD (argminIdx l) 0) : argminIdx l ≤ j := by
  induction l generalizing j with
  | nil => simp at hj
  | cons x xs ih =>
    cases xs with
    | nil => simp [argminIdx]
    | cons y ys =>
      simp only [argminIdx] at hle ⊢
      by_cases hx : x ≤ (y :: ys).getD (argminIdx (y :: ys)) 0
      · rw [if_pos hx]
        exact Nat.zero_le _
      · rw [if_neg hx] at hle ⊢
        cases j with
        | zero =>
          exfalso
          apply hx
          calc x = (x :: y :: ys).getD 0 0 := rfl
            _ ≤ (x :: y :: ys).getD (argminIdx (y :: ys) + 1) 0 := hle
            _ = (y :: ys).getD (argminIdx (y :: ys)) 0 := rfl
        | succ n =>
          have hn : n < (y :: ys).length := by simpa using hj
          have hle' : (y :: ys).getD n 0
              ≤ (y :: ys).getD (argminIdx (y :: ys)) 0 := hle
          exact Nat.succ_le_succ (ih n hn hle')

theorem gridQ_length (n : Nat) : (gridQ n).length = n := by
  unfold gridQ
  rw [List.length_map, List.length_range]

theorem gridQ_getD (n i : Nat) (h : i < n) :
    (gridQ n).getD i 0 = (i : ℚ) / 10 := by
  unfold gridQ
  rw [List.getD_eq_getElem?_getD, List.getElem?_map, List.getElem?_range h]
  rfl

theorem gridQ_mem (n : Nat) (x : ℚ) (hx : x ∈ gridQ n) :
    ∃ i, i < n ∧ (gridQ n).getD i 0 = x := by
  unfold gridQ at hx
  obtain ⟨i, hi, hfx⟩ := List.mem_map.mp hx
  have hin : i < n := List.mem_range.mp hi
  exact ⟨i, hin, by rw [gridQ_getD n i hin]; exact hfx⟩

theorem gridQ_mono (n i j : Nat) (hi : i < n) (hj : j < n) (hij : i ≤ j) :
    (gridQ n).getD i 0 ≤ (gridQ n).getD j 0 := by
  rw [gridQ_getD n i hi, gridQ_getD n j hj]
  have hc : (i : ℚ) ≤ (j : ℚ) := by exact_mod_cast hij
  linarith

/-- Selection core shared by the two regression instances: for a regressable
chunk the pass picks a grid candidate achieving the minimal score, and on
ties the candidate with the lowest index — hence, the grid being ascending,
the smallest candidate value. -/
theorem coeff_minimal (f g : HRow → Option ℚ) (n : Nat) (hn : 0 < n)
    (chunk : List HRow) (hd : 3 ≤ uniqueDayCount chunk)
    (hf : goodVals f chunk ≠ []) (hg : goodVals g chunk ≠ []) :
    ∃ c, chunkCoeff f g (gridQ n) chunk = some c ∧ c ∈ gridQ n ∧
      (∀ x ∈ gridQ n, scoreAt f g chunk c ≤ scoreAt f g chunk x) ∧
      (∀ x ∈ gridQ n, scoreAt f g chunk x = scoreAt f g chunk c → c ≤ x) := by
  have hcc : chunkCoeff f g (gridQ n) chunk
      = some ((gridQ n).getD (argminIdx ((gridQ n).map (scoreAt f g chunk))) 0) := by
    unfold chunkCoeff
    rw [if_neg (by omega), if_neg (by simp [List.isEmpty_iff, hf, hg])]
  have hlen : ((gridQ n).map (scoreAt f g chunk)).length = n := by
    simp [gridQ_length]
  have hjn : argminIdx ((gridQ n).map (scoreAt f g chunk)) < n := by
    have hne : ((gridQ n).map (scoreAt f g chunk)) ≠ [] := by
      intro hcon
      rw [hcon] at hlen
      simp at hlen
      omega
    have := argminIdx_lt _ hne
    rwa [hlen] at this
  set j := argminIdx ((gridQ n).map (scoreAt f g chunk)) with hjdef
  have hjl : j < (gridQ n).length := by rw [gridQ_length]; exact hjn
  refine ⟨(gridQ n).getD j 0, hcc, ?_, ?_, ?_⟩
  · rw [List.getD_eq_getElem?_getD, List.getElem?_eq_getElem hjl]
    exact List.getElem_mem hjl
  · intro x hx
    obtain ⟨i, hin, hge⟩ := gridQ_mem n x hx
    have h1 : scoreAt f g chunk ((gridQ n).getD j 0)
        = ((gridQ n).map (scoreAt f g chunk)).getD j 0 :=
      (getD_map_q _ _ _ hjl).symm
    have h2 : scoreAt f g chunk x
        = ((gridQ n).map (scoreAt f g chunk)).getD i 0 := by
      rw [getD_map_q _ _ _ (by rw [gridQ_length]; exact hin), hge]
    rw [h1, h2]
    exact argminIdx_min _ i (by rw [hlen]; exact hin)
  · intro x hx heq
    obtain ⟨i, hin, hge⟩ := gridQ_mem n x hx
    have hil : i < (gridQ n).length := by rw [gridQ_length]; exact hin
    have hji : j ≤ i := by
      apply argminIdx_first _ i (by rw [hlen]; exact hin)
      rw [getD_map_q _ _ i hil, getD_map_q _ _ j hjl, hge]
      exact le_of_eq heq
    rw [← hge]
    exact gridQ_mono n j i hjn hin hji

/-- C1 as stated fails: on a regressable chunk whose two usable index sets
differ, the program's per-candidate score computation produces no number for
any candidate (`np.corrcoef` receives the 3-entry aligned residual and the
2-entry usable reference series and raises), so no score-minimising
candidate is selected on that chunk. -/
theorem c1_counterexample :
    (3 ≤ uniqueDayCount c1X ∧ goodVals rawBrC c1X ≠ [] ∧
      goodVals refBrC c1X ≠ []) ∧
    (∀ c : ℚ, scoreCode rawBrC refBrC c1X c = none) := by
  refine ⟨by decide, fun c => ?_⟩
  have h1 : (alignedResidual rawBrC refBrC c c1X).length = 3 := by
    unfold alignedResidual
    rw [List.length_map]
    decide
  have h2 : (goodVals refBrC c1X).length = 2 := by decide
  unfold scoreCode
  simp [h1, h2]

/-! ## C2: window extension and the final filter -/

/-- C2 as stated fails: with start day 0, end day 3 and `Time_Delta = 3` the
end is extended to day 5, and a row at day 4 — beyond the user's original end
— survives the final filter, because the filter uses the reassigned
(extended) end date. -/
theorem c2_counterexample :
    extendEnd 0 3 3 = 5 ∧
    emittedTimes [4 * 86400] 0 3 3 = [4 * 86400] ∧
    ¬(∀ x ∈ emittedTimes [4 * 86400] 0 3 3, x ≤ 3 * 86400) := by decide

/-- C2 amended: the internal window is indeed extended to a multiple of
`Time_Delta`, but the final emitted rows are exactly those inside the
EXTENDED `[start, extended end]` window — rows between the original end and
the extended end are kept, not filtered out. -/
theorem c2_amended (ts : List Int) (s e td : Int) (h0 : 0 < td) :
    (extendEnd s e td - s + 1) % td = 0 ∧
    e ≤ extendEnd s e td ∧
    emittedTimes ts s e td = ts.filter (fun t =>
      decide (s * 86400 ≤ t) && decide (t ≤ extendEnd s e td * 86400)) ∧
    (∀ x ∈ emittedTimes ts s e td,
      s * 86400 ≤ x ∧ x ≤ extendEnd s e td * 86400) := by
  refine ⟨?_, ?_, rfl, ?_⟩
  · simp only [extendEnd]
    split_ifs with hr
    · have key : e + (td - (e - s + 1) % td) - s + 1
          = td * ((e - s + 1) / td + 1) := by
        rw [Int.emod_def]
        ring
      rw [key]
      exact Int.mul_emod_right _ _
    · exact not_not.mp hr
  · simp only [extendEnd]
    split_ifs with hr
    · have hlt : (e - s + 1) % td < td := Int.emod_lt_of_pos _ h0
      omega
    · exact le_refl e
  · intro x hx
    have := List.of_mem_filter hx
    simpa using this

/-- Witness for the amended C2 at concrete inputs. -/
theorem c2_witness :
    (0 : Int) < 3 ∧
    ((extendEnd 0 3 3 - 0 + 1) % 3 = 0 ∧
     (3 : Int) ≤ extendEnd 0 3 3 ∧
     emittedTimes [0] 0 3 3 = List.filter (fun t =>
       decide ((0 : Int) * 86400 ≤ t) && decide (t ≤ extendEnd 0 3 3 * 86400)) [0] ∧
     (∀ x ∈ emittedTimes [0] 0 3 3,
       (0 : Int) * 86400 ≤ x ∧ x ≤ extendEnd 0 3 3 * 86400)) :=
  ⟨by decide, c2_amended [0] 0 3 3 (by decide)⟩

/-! ## Projection and sentinel-rule lemmas for the derived calculator -/

theorem computeDerived_babs2 (k : Consts) (r : RowF) :
    (computeDerived k r).babs2 = r.babs2 := rfl

theorem computeDerived_babs7 (k : Consts) (r : RowF) :
    (computeDerived k r).babs7 = r.babs7 := rfl

theorem computeDerived_tcconc (k : Consts) (r : RowF) :
    (computeDerived k r).tcconc = r.tcconc := rfl

theorem computeDerived_babsFF (k : Consts) (r : RowF) :
    (computeDerived k r).babsFF = (r.babs7 - r.babs2 * pBB k) / denFF k := rfl

theorem computeDerived_babsBB (k : Consts) (r : RowF) :
    (computeDerived k r).babsBB = (r.babs7 - r.babs2 * pFF k) / denFF k := rfl

theorem cond1_true (k : Consts) (r : RowF)
    (h : r.babs7 = -99 ∨ r.babs2 = -99) :
    cond1 (computeDerived k r) = true := by
  simp only [cond1, computeDerived_babs7, computeDerived_babs2,
    Bool.or_eq_true, decide_eq_true_eq]
  exact h

theorem cond2_true (k : Consts) (r : RowF)
    (h : r.tcconc = none ∨ r.tcconc = some (-99)) :
    cond2 (computeDerived k r) = true := by
  simp only [cond2, computeDerived_tcconc, Bool.or_eq_true, decide_eq_true_eq]
  exact h

theorem sentinel_rule1 (s : RowOut) (h : cond1 s = true) :
    (sentinelPass s).babsFF = -99 ∧ (sentinelPass s).babsBB = -99 ∧
    (sentinelPass s).bcFF = -99 ∧ (sentinelPass s).bcBB = -99 ∧
    (sentinelPass s).babsBrC = -99 ∧ (sentinelPass s).babsBC = -99 ∧
    (sentinelPass s).brcSec = some (-99) := by
  unfold sentinelPass applyRule1 applyRule2
  rw [if_pos h]
  by_cases h2 : cond2 s = true
  · rw [if_pos h2]
    exact ⟨rfl, rfl, rfl, rfl, rfl, rfl, rfl⟩
  · rw [if_neg h2]
    exact ⟨rfl, rfl, rfl, rfl, rfl, rfl, rfl⟩

theorem sentinel_rule2 (s : RowOut) (h : cond2 s = true) :
    (sentinelPass s).soc = some (-99) ∧ (sentinelPass s).poc = some (-99) ∧
    (sentinelPass s).soa = some (-99) ∧ (sentinelPass s).poa = some (-99) ∧
    (sentinelPass s).ae33bc6 = -99 ∧ (sentinelPass s).brC = -99 ∧
    (sentinelPass s).brcSec = some (-99) ∧
    (sentinelPass s).brcPrim = some (-99) ∧
    (sentinelPass s).poaBrC = some (-99) ∧
    (sentinelPass s).soaBrC = some (-99) ∧
    (sentinelPass s).poaWtC = some (-99) ∧
    (sentinelPass s).soaWtC = some (-99) ∧
    (sentinelPass s).tcconc = some (-99) ∧ (sentinelPass s).co2 = -99 ∧
    (sentinelPass s).ec = -99 ∧ (sentinelPass s).oc = -99 ∧
    (sentinelPass s).bcFF = -99 ∧ (sentinelPass s).bcBB = -99 := by
  unfold sentinelPass applyRule2
  rw [if_pos h]
  exact ⟨rfl, rfl, rfl, rfl, rfl, rfl, rfl, rfl, rfl, rfl, rfl, rfl, rfl,
    rfl, rfl, rfl, rfl, rfl⟩

/-- C5: after the derived-quantity pass, a row whose `B-abs7` or `B-abs2` is
the `-99` sentinel has the seven absorption-apportionment columns forced to
`-99`; then — second, and allowed to override the first rule — a row whose
`TCconc` is missing or `-99` has the eighteen carbon columns forced to
`-99`. -/
theorem c5_sentinel_rules (k : Consts) (r : RowF) :
    ((r.babs7 = -99 ∨ r.babs2 = -99) →
      (calcFinalRow k r).babsFF = -99 ∧ (calcFinalRow k r).babsBB = -99 ∧
      (calcFinalRow k r).bcFF = -99 ∧ (calcFinalRow k r).bcBB = -99 ∧
      (calcFinalRow k r).babsBrC = -99 ∧ (calcFinalRow k r).babsBC = -99 ∧
      (calcFinalRow k r).brcSec = some (-99)) ∧
    ((r.tcconc = none ∨ r.tcconc = some (-99)) →
      (calcFinalRow k r).soc = some (-99) ∧
      (calcFinalRow k r).poc = some (-99) ∧
      (calcFinalRow k r).soa = some (-99) ∧
      (calcFinalRow k r).poa = some (-99) ∧
      (calcFinalRow k r).ae33bc6 = -99 ∧ (calcFinalRow k r).brC = -99 ∧
      (calcFinalRow k r).brcSec = some (-99) ∧
      (calcFinalRow k r).brcPrim = some (-99) ∧
      (calcFinalRow k r).poaBrC = some (-99) ∧
      (calcFinalRow k r).soaBrC = some (-99) ∧
      (calcFinalRow k r).poaWtC = some (-99) ∧
      (calcFinalRow k r).soaWtC = some (-99) ∧
      (calcFinalRow k r).tcconc = some (-99) ∧
      (calcFinalRow k r).co2 = -99 ∧ (calcFinalRow k r).ec = -99 ∧
      (calcFinalRow k r).oc = -99 ∧ (calcFinalRow k r).bcFF = -99 ∧
      (calcFinalRow k r).bcBB = -99) ∧
    sentinelPass (computeDerived k r)
      = applyRule2 (computeDerived k r) (applyRule1 (computeDerived k r)) := by
  refine ⟨fun h => ?_, fun h => ?_, rfl⟩
  · exact sentinel_rule1 (computeDerived k r) (cond1_true k r h)
  · exact sentinel_rule2 (computeDerived k r) (cond2_true k r h)

/-- Witness for C5 at a row triggering both rules. -/
theorem c5_witness :
    (c5R.babs7 = -99 ∨ c5R.babs2 = -99) ∧
    (c5R.tcconc = none ∨ c5R.tcconc = some (-99)) ∧
    (calcFinalRow c5K c5R).babsFF = -99 ∧
    (calcFinalRow c5K c5R).ae33bc6 = -99 ∧
    (calcFinalRow c5K c5R).brcSec = some (-99) :=
  ⟨Or.inr rfl, Or.inr rfl,
   ((c5_sentinel_rules c5K c5R).1 (Or.inr rfl)).1,
   ((c5_sentinel_rules c5K c5R).2.1 (Or.inr rfl)).2.2.2.2.1,
   ((c5_sentinel_rules c5K c5R).2.1 (Or.inr rfl)).2.2.2.2.2.2.1⟩

/-- C9: `B-abs6_Val` is computed from the post-pass `AE33_BC6` column, so in
a row where `AE33_BC6` was forced to `-99` (because `TCconc` was sentinel or
missing) it equals `-99 * 7.77 / 1000 = -0.76923` — the sentinel does not
propagate into this derived column. -/
theorem c9_babs6val (k : Consts) (r : RowF) :
    babs6Val k r = (calcFinalRow k r).ae33bc6 * (777 / 100) / 1000 ∧
    ((r.tcconc = none ∨ r.tcconc = some (-99)) →
      (calcFinalRow k r).ae33bc6 = -99 ∧
      babs6Val k r = -(76923 / 100000) ∧ babs6Val k r ≠ -99) := by
  refine ⟨rfl, fun h => ?_⟩
  have hbc : (calcFinalRow k r).ae33bc6 = -99 :=
    (sentinel_rule2 (computeDerived k r) (cond2_true k r h)).2.2.2.2.1
  refine ⟨hbc, ?_, ?_⟩
  · unfold babs6Val
    rw [hbc]
    norm_num
  · unfold babs6Val
    rw [hbc]
    norm_num

/-- Witness for C9 at a row with missing `TCconc`. -/
theorem c9_witness :
    (c9R.tcconc = none ∨ c9R.tcconc = some (-99)) ∧
    babs6Val c9K c9R = (calcFinalRow c9K c9R).ae33bc6 * (777 / 100) / 1000 ∧
    ((calcFinalRow c9K c9R).ae33bc6 = -99 ∧
     babs6Val c9K c9R = -(76923 / 100000) ∧ babs6Val c9K c9R ≠ -99) :=
  ⟨Or.inl rfl, (c9_babs6val c9K c9R).1, (c9_babs6val c9K c9R).2 (Or.inl rfl)⟩

/-- C10: the `B-abs-ff` / `B-abs-bb` formulas divide by
`(950/470)^(-AAE_ff) - (950/470)^(-AAE_bb)` with no guard; when
`AAE_ff = AAE_bb` this denominator is exactly zero and every row's division
has a zero divisor, and (the power map being injective) the denominator
vanishes ONLY in that configuration. -/
theorem c10_denominator (k : Consts) :
    (k.aaeFF = k.aaeBB →
      denFF k = 0 ∧
      ∀ r : RowF,
        (computeDerived k r).babsFF = (r.babs7 - r.babs2 * pBB k) / 0 ∧
        (computeDerived k r).babsBB = (r.babs7 - r.babs2 * pFF k) / 0) ∧
    (Function.Injective k.p947 → (denFF k = 0 ↔ k.aaeFF = k.aaeBB)) := by
  constructor
  · intro h
    have hp : pFF k = pBB k := by
      unfold pFF pBB
      rw [h]
    have hd : denFF k = 0 := by
      unfold denFF
      rw [hp, sub_self]
    refine ⟨hd, fun r => ⟨?_, ?_⟩⟩
    · rw [computeDerived_babsFF, hd]
    · rw [computeDerived_babsBB, hd]
  · intro hinj
    constructor
    · intro hd
      unfold denFF at hd
      have hp : pFF k = pBB k := sub_eq_zero.mp hd
      unfold pFF pBB at hp
      exact neg_inj.mp (hinj hp)
    · intro h
      unfold denFF pFF pBB
      rw [h, sub_self]

/-- Witness for C10 with equal exponents and the identity as power map. -/
theorem c10_witness :
    c10K.aaeFF = c10K.aaeBB ∧ Function.Injective c10K.p947 ∧
    (denFF c10K = 0 ∧
      ∀ r : RowF,
        (computeDerived c10K r).babsFF = (r.babs7 - r.babs2 * pBB c10K) / 0 ∧
        (computeDerived c10K r).babsBB = (r.babs7 - r.babs2 * pFF c10K) / 0) ∧
    (denFF c10K = 0 ↔ c10K.aaeFF = c10K.aaeBB) :=
  ⟨rfl, fun a b h => h, (c10_denominator c10K).1 rfl,
   (c10_denominator c10K).2 (fun a b h => h)⟩

/-- C4 as stated fails: with distinct exponents and non-sentinel inputs the
computed components satisfy neither
`Aabs_ff * r^(-AAE_ff) + Aabs_bb * r^(-AAE_bb) = Aabs_IR` nor
`Aabs_ff + Aabs_bb = Aabs_blue` — the code's `B-abs-bb` uses the FF
denominator and is the NEGATIVE of the complementary component. -/
theorem c4_counterexample :
    c4K.aaeFF ≠ c4K.aaeBB ∧ c4R.babs7 ≠ -99 ∧ c4R.babs2 ≠ -99 ∧
    ¬((computeDerived c4K c4R).babsFF * pFF c4K +
        (computeDerived c4K c4R).babsBB * pBB c4K = c4R.babs7 ∧
      (computeDerived c4K c4R).babsFF + (computeDerived c4K c4R).babsBB
        = c4R.babs2) := by
  have hpf : pFF c4K = 2 := by
    show (if (-(1 : ℚ)) = -1 then (2 : ℚ) else 4) = 2
    rw [if_pos rfl]
  have hpb : pBB c4K = 4 := by
    show (if (-(2 : ℚ)) = -1 then (2 : ℚ) else 4) = 4
    rw [if_neg (by norm_num)]
  have hff : (computeDerived c4K c4R).babsFF = 1 := by
    rw [computeDerived_babsFF]
    unfold denFF
    rw [hpf, hpb]
    show ((10 : ℚ) - 3 * 4) / (2 - 4) = 1
    norm_num
  have hbb : (computeDerived c4K c4R).babsBB = -2 := by
    rw [computeDerived_babsBB]
    unfold denFF
    rw [hpf, hpb]
    show ((10 : ℚ) - 3 * 2) / (2 - 4) = -2
    norm_num
  refine ⟨?_, ?_, ?_, ?_⟩
  · show (1 : ℚ) ≠ 2
    norm_num
  · show (10 : ℚ) ≠ -99
    norm_num
  · show (3 : ℚ) ≠ -99
    norm_num
  · rintro ⟨h1, h2⟩
    rw [hff, hbb] at h2
    have hcon : (1 : ℚ) + -2 = 3 := h2
    norm_num at hcon

/-- C4 amended: with a nonzero denominator (equivalently distinct
exponents), the components satisfy the identities with SUBTRACTION:
`Aabs_ff * r^(-AAE_ff) - Aabs_bb * r^(-AAE_bb) = Aabs_IR` and
`Aabs_ff - Aabs_bb = Aabs_blue`. -/
theorem c4_amended (k : Consts) (r : RowF) (h7 : r.babs7 ≠ -99)
    (h2 : r.babs2 ≠ -99) (hp : pFF k ≠ pBB k) :
    (computeDerived k r).babsFF * pFF k - (computeDerived k r).babsBB * pBB k
      = r.babs7 ∧
    (computeDerived k r).babsFF - (computeDerived k r).babsBB = r.babs2 := by
  have hd : pFF k - pBB k ≠ 0 := sub_ne_zero.mpr hp
  rw [computeDerived_babsFF, computeDerived_babsBB]
  unfold denFF
  constructor
  · field_simp
    ring
  · field_simp
    ring

/-- Witness for the amended C4 at the concrete configuration. -/
theorem c4_witness :
    c4R.babs7 ≠ -99 ∧ c4R.babs2 ≠ -99 ∧ pFF c4K ≠ pBB c4K ∧
    ((computeDerived c4K c4R).babsFF * pFF c4K -
        (computeDerived c4K c4R).babsBB * pBB c4K = c4R.babs7 ∧
      (computeDerived c4K c4R).babsFF - (computeDerived c4K c4R).babsBB
        = c4R.babs2) := by
  have h7 : c4R.babs7 ≠ -99 := by
    show (10 : ℚ) ≠ -99
    norm_num
  have h2 : c4R.babs2 ≠ -99 := by
    show (3 : ℚ) ≠ -99
    norm_num
  have hp : pFF c4K ≠ pBB c4K := by
    show (if (-(1 : ℚ)) = -1 then (2 : ℚ) else 4)
      ≠ (if (-(2 : ℚ)) = -1 then (2 : ℚ) else 4)
    rw [if_pos rfl, if_neg (by norm_num)]
    norm_num
  exact ⟨h7, h2, hp, c4_amended c4K c4R h7 h2 hp⟩

/-! ## C6: chunk regressability -/

theorem goodVals_ne_nil (f : HRow → Option ℚ) (chunk : List HRow) :
    goodVals f chunk ≠ [] ↔ ∃ r ∈ chunk, goodVal (f r) = true := by
  unfold goodVals
  simp [List.filter_eq_nil]

theorem chunkCoeff_isSome (f g : HRow → Option ℚ) (grid : List ℚ)
    (chunk : List HRow) :
    (chunkCoeff f g grid chunk).isSome = true ↔
      (3 ≤ uniqueDayCount chunk ∧ goodVals f chunk ≠ [] ∧
        goodVals g chunk ≠ []) := by
  unfold chunkCoeff
  split_ifs with hd he
  · simp only [Option.isSome_none, Bool.false_eq_true, false_iff]
    rintro ⟨h3, -, -⟩
    omega
  · simp only [Option.isSome_none, Bool.false_eq_true, false_iff]
    rintro ⟨-, hf, hg⟩
    simp only [Bool.or_eq_true, List.isEmpty_iff] at he
    rcases he with he | he
    · exact hf he
    · exact hg he
  · simp only [Option.isSome_some, true_iff]
    refine ⟨by omega, ?_, ?_⟩
    · intro hcon
      exact he (by simp [List.isEmpty_iff, hcon])
    · intro hcon
      exact he (by simp [List.isEmpty_iff, hcon])

/-- C6: a chunk is regressable iff it spans at least 3 distinct calendar
days AND each regression series has at least one value that is neither `-99`
nor missing; a 3-day chunk with a usable value in both series is regressed,
a 2-day chunk is skipped regardless of its data volume. -/
theorem c6_regressable_iff (f g : HRow → Option ℚ) (grid : List ℚ)
    (chunk : List HRow) :
    ((chunkCoeff f g grid chunk).isSome = true ↔
      (3 ≤ uniqueDayCount chunk ∧ (∃ r ∈ chunk, goodVal (f r) = true) ∧
        (∃ r ∈ chunk, goodVal (g r) = true))) ∧
    (uniqueDayCount chunk = 3 → (∃ r ∈ chunk, goodVal (f r) = true) →
      (∃ r ∈ chunk, goodVal (g r) = true) →
      (chunkCoeff f g grid chunk).isSome = true) ∧
    (uniqueDayCount chunk = 2 → chunkCoeff f g grid chunk = none) := by
  refine ⟨?_, ?_, ?_⟩
  · rw [chunkCoeff_isSome, goodVals_ne_nil f chunk, goodVals_ne_nil g chunk]
  · intro h3 hf hg
    rw [chunkCoeff_isSome]
    exact ⟨by omega, (goodVals_ne_nil f chunk).mpr hf,
      (goodVals_ne_nil g chunk).mpr hg⟩
  · intro h2
    unfold chunkCoeff
    rw [if_pos (by omega)]

/-- Witness for C6 at a concrete 3-day chunk. -/
theorem c6_witness :
    uniqueDayCount c6W = 3 ∧ (∃ r ∈ c6W, goodVal (rawBrC r) = true) ∧
    (∃ r ∈ c6W, goodVal (refBrC r) = true) ∧
    (chunkCoeff rawBrC refBrC (gridQ 61) c6W).isSome = true :=
  ⟨by decide, by decide, by decide,
   (c6_regressable_iff rawBrC refBrC (gridQ 61) c6W).2.1 (by decide)
     (by decide) (by decide)⟩

/-! ## C7: skipped chunks and the missing marker -/

/-- C7: in each regression pass, a row of a skipped (non-regressable) chunk —
or a row covered by no generated chunk — receives the true missing marker
(`none`, distinct from `-99`), a row of a regressable chunk receives its
computed value, and when every chunk was skipped the entire derived column
is missing; a skipped chunk never aborts the pass, which is a total
function. -/
theorem c7_skipped_chunks (f g : HRow → Option ℚ) (grid : List ℚ) (tds : Int)
    (rows : List HRow) (k : Nat) (r : HRow) (hk : rows.get? k = some r) :
    (rowChunk tds rows r = none →
      (regColumn f g grid tds rows).get? k = some none) ∧
    (∀ s, rowChunk tds rows r = some s →
      chunkCoeff f g grid (chunkRows rows s tds) = none →
      (regColumn f g grid tds rows).get? k = some none) ∧
    (∀ s c, rowChunk tds rows r = some s →
      chunkCoeff f g grid (chunkRows rows s tds) = some c →
      (regColumn f g grid tds rows).get? k
        = some (Option.map₂ (fun a b => a - c * b) (f r) (g r))) ∧
    ((∀ s ∈ chunkStarts (minT rows) (maxT rows) tds,
        chunkCoeff f g grid (chunkRows rows s tds) = none) →
      (regColumn f g grid tds rows).get? k = some none) ∧
    brcSecColumn tds rows = regColumn rawBrC refBrC (gridQ 61) tds rows ∧
    socColumn tds rows = regColumn rawSOC refSOC (gridQ 101) tds rows := by
  have base : (regColumn f g grid tds rows).get? k
      = some (match rowChunk tds rows r with
        | none => none
        | some s =>
          match chunkCoeff f g grid (chunkRows rows s tds) with
          | none => none
          | some c => Option.map₂ (fun a b => a - c * b) (f r) (g r)) := by
    unfold regColumn
    rw [List.get?_map, hk]
    rfl
  refine ⟨?_, ?_, ?_, ?_, rfl, rfl⟩
  · intro h
    rw [base, h]
  · intro s hs hc
    rw [base, hs]
    dsimp only
    rw [hc]
  · intro s c hs hc
    rw [base, hs]
    dsimp only
    rw [hc]
  · intro hall
    cases hrc : rowChunk tds rows r with
    | none => rw [base, hrc]
    | some s =>
      have hmem : s ∈ chunkStarts (minT rows) (maxT rows) tds :=
        List.mem_of_find?_eq_some hrc
      rw [base, hrc]
      dsimp only
      rw [hall s hmem]

/-- Witness for C7: a regressed row, a row in no generated chunk, and a frame
whose chunks are all skipped. -/
theorem c7_witness :
    c7Rows.get? 0 = some c7r0 ∧
    rowChunk 259200 c7Rows c7r0 = some 0 ∧
    chunkCoeff rawBrC refBrC [(5 : ℚ)] (chunkRows c7Rows 0 259200)
      = some 5 ∧
    (regColumn rawBrC refBrC [(5 : ℚ)] 259200 c7Rows).get? 0
      = some (Option.map₂ (fun a b => a - 5 * b) (rawBrC c7r0) (refBrC c7r0)) ∧
    c7Rows.get? 3 = some c7r3 ∧
    rowChunk 259200 c7Rows c7r3 = none ∧
    (regColumn rawBrC refBrC [(5 : ℚ)] 259200 c7Rows).get? 3 = some none ∧
    c7RowsB.get? 0 = some c7b0 ∧
    (∀ s ∈ chunkStarts (minT c7RowsB) (maxT c7RowsB) 259200,
      chunkCoeff rawBrC refBrC (gridQ 61) (chunkRows c7RowsB s 259200)
        = none) ∧
    (regColumn rawBrC refBrC (gridQ 61) 259200 c7RowsB).get? 0 = some none :=
  ⟨by decide, by decide, by decide,
   (c7_skipped_chunks rawBrC refBrC [(5 : ℚ)] 259200 c7Rows 0 c7r0
     (by decide)).2.2.1 0 5 (by decide) (by decide),
   by decide, by decide,
   (c7_skipped_chunks rawBrC refBrC [(5 : ℚ)] 259200 c7Rows 3 c7r3
     (by decide)).1 (by decide),
   by decide, by decide,
   (c7_skipped_chunks rawBrC refBrC (gridQ 61) 259200 c7RowsB 0 c7b0
     (by decide)).2.2.2.1 (by decide)⟩

/-! ## C8: the time-bucketer's aligned frame -/

theorem alignedKeys_map_bucket (iv lo hi : Int) (tr : List TcaRow)
    (ar : List AeRow) :
    (fetchAligned iv lo hi tr ar).map (fun r => r.bucket)
      = alignedKeys iv (tSel lo hi tr) (aSel lo hi ar) := by
  unfold fetchAligned
  rw [List.map_map]
  have hcomp : ((fun r : ARow => r.bucket)
      ∘ mkARow iv (tSel lo hi tr) (aSel lo hi ar)) = id := by
    funext b
    rfl
  rw [hcomp, List.map_id]

theorem alignedKeys_sorted (iv : Int) (tr : List TcaRow) (ar : List AeRow) :
    List.Pairwise (fun a b => a < b) (alignedKeys iv tr ar) := by
  unfold alignedKeys
  have hs : List.Sorted (· ≤ ·)
      (List.insertionSort (· ≤ ·) ((tKeys iv tr ++ aKeys iv ar).dedup)) :=
    List.sorted_insertionSort _ _
  have hperm := List.perm_insertionSort (· ≤ ·)
    ((tKeys iv tr ++ aKeys iv ar).dedup)
  have hnd : (List.insertionSort (· ≤ ·)
      ((tKeys iv tr ++ aKeys iv ar).dedup)).Nodup :=
    hperm.nodup_iff.mpr (List.nodup_dedup _)
  exact (List.Pairwise.and hs hnd).imp (fun h => lt_of_le_of_ne h.1 h.2)

theorem alignedKeys_mem (iv : Int) (tr : List TcaRow) (ar : List AeRow)
    (b : Int) :
    b ∈ alignedKeys iv tr ar ↔
      ((∃ r ∈ tr, bucketOf iv r.t = b) ∨ (∃ r ∈ ar, bucketOf iv r.t = b)) := by
  unfold alignedKeys
  rw [(List.perm_insertionSort _ _).mem_iff, List.mem_dedup, List.mem_append]
  unfold tKeys aKeys
  rw [List.mem_dedup, List.mem_dedup]
  simp [List.mem_map]

/-- C8: the aligned frame's bucket timestamps are strictly increasing and
duplicate-free; the set of bucket keys is exactly the union of the keys
present in either range-restricted source, each appearing exactly once; and
each channel field is the arithmetic mean of its source's raw readings whose
truncated-to-bucket timestamp matches the bucket, or `-99` when that source
has no reading in the bucket. -/
theorem c8_bucketer (iv lo hi : Int) (tr : List TcaRow) (ar : List AeRow) :
    List.Pairwise (fun a b => a < b)
      ((fetchAligned iv lo hi tr ar).map (fun r => r.bucket)) ∧
    (∀ b : Int,
      b ∈ (fetchAligned iv lo hi tr ar).map (fun r => r.bucket) ↔
        ((∃ r ∈ tSel lo hi tr, bucketOf iv r.t = b) ∨
         (∃ r ∈ aSel lo hi ar, bucketOf iv r.t = b))) ∧
    (∀ b ∈ (fetchAligned iv lo hi tr ar).map (fun r => r.bucket),
      ((fetchAligned iv lo hi tr ar).map (fun r => r.bucket)).count b = 1) ∧
    (∀ row ∈ fetchAligned iv lo hi tr ar,
      row.tconc = fieldT iv row.bucket (tSel lo hi tr) (fun x => x.tconc) ∧
      row.co2 = fieldT iv row.bucket (tSel lo hi tr) (fun x => x.co2) ∧
      row.ec = fieldT iv row.bucket (tSel lo hi tr) (fun x => x.ec) ∧
      row.oc = fieldT iv row.bucket (tSel lo hi tr) (fun x => x.oc) ∧
      row.ae33bc6 = fieldT iv row.bucket (tSel lo hi tr) (fun x => x.bc6) ∧
      row.bc1 = fieldA iv row.bucket (aSel lo hi ar) (fun x => x.bc1) ∧
      row.bc2 = fieldA iv row.bucket (aSel lo hi ar) (fun x => x.bc2) ∧
      row.bc3 = fieldA iv row.bucket (aSel lo hi ar) (fun x => x.bc3) ∧
      row.bc4 = fieldA iv row.bucket (aSel lo hi ar) (fun x => x.bc4) ∧
      row.bc5 = fieldA iv row.bucket (aSel lo hi ar) (fun x => x.bc5) ∧
      row.bc6 = fieldA iv row.bucket (aSel lo hi ar) (fun x => x.bc6) ∧
      row.bc7 = fieldA iv row.bucket (aSel lo hi ar) (fun x => x.bc7)) ∧
    (∀ (b : Int) (f : TcaRow → ℚ),
      fieldT iv b (tSel lo hi tr) f =
        if (tMatch iv b (tSel lo hi tr)).isEmpty then -99
        else avgQ ((tMatch iv b (tSel lo hi tr)).map f)) ∧
    (∀ (b : Int) (f : AeRow → ℚ),
      fieldA iv b (aSel lo hi ar) f =
        if (aMatch iv b (aSel lo hi ar)).isEmpty then -99
        else avgQ ((aMatch iv b (aSel lo hi ar)).map f)) := by
  have hmapb := alignedKeys_map_bucket iv lo hi tr ar
  refine ⟨?_, ?_, ?_, ?_, fun b f => rfl, fun b f => rfl⟩
  · rw [hmapb]
    exact alignedKeys_sorted iv _ _
  · intro b
    rw [hmapb]
    exact alignedKeys_mem iv _ _ b
  · intro b hb
    have hnd : ((fetchAligned iv lo hi tr ar).map (fun r => r.bucket)).Nodup := by
      rw [hmapb]
      exact (alignedKeys_sorted iv _ _).imp (fun h => ne_of_lt h)
    exact List.count_eq_one_of_mem hnd hb
  · intro row hrow
    unfold fetchAligned at hrow
    obtain ⟨b, hb, hrw⟩ := List.mem_map.mp hrow
    subst hrw
    exact ⟨rfl, rfl, rfl, rfl, rfl, rfl, rfl, rfl, rfl, rfl, rfl, rfl⟩

/-- Witness for C8 on a tiny pair of sources with disjoint buckets. -/
theorem c8_witness :
    ((0 : Int) ∈ (fetchAligned 3600 0 86400 c8T c8A).map (fun r => r.bucket)) ∧
    ((fetchAligned 3600 0 86400 c8T c8A).map (fun r => r.bucket)).count 0
      = 1 ∧
    ((0 : Int) ∈ (fetchAligned 3600 0 86400 c8T c8A).map (fun r => r.bucket) ↔
      ((∃ r ∈ tSel 0 86400 c8T, bucketOf 3600 r.t = 0) ∨
       (∃ r ∈ aSel 0 86400 c8A, bucketOf 3600 r.t = 0))) ∧
    (mkARow 3600 (tSel 0 86400 c8T) (aSel 0 86400 c8A) 0
      ∈ fetchAligned 3600 0 86400 c8T c8A) ∧
    (mkARow 3600 (tSel 0 86400 c8T) (aSel 0 86400 c8A) 0).tconc
      = fieldT 3600
          (mkARow 3600 (tSel 0 86400 c8T) (aSel 0 86400 c8A) 0).bucket
          (tSel 0 86400 c8T) (fun x => x.tconc) :=
  ⟨by decide,
   (c8_bucketer 3600 0 86400 c8T c8A).2.2.1 0 (by decide),
   (c8_bucketer 3600 0 86400 c8T c8A).2.1 0,
   List.mem_map_of_mem _ (by decide),
   ((c8_bucketer 3600 0 86400 c8T c8A).2.2.2.1 _
     (List.mem_map_of_mem _ (by decide))).1⟩

/-! ## C3: the per-candidate residual and score -/

theorem map_congr_mem {α β : Type} (l : List α) (F G : α → β)
    (h : ∀ a ∈ l, F a = G a) : l.map F = l.map G := by
  induction l with
  | nil => rfl
  | cons x xs ih =>
    simp only [List.map_cons]
    rw [h x (List.mem_cons_self x xs),
      ih (fun a ha => h a (List.mem_cons_of_mem x ha))]

theorem goodIdxFrom_ge (f : HRow → Option ℚ) :
    ∀ (rows : List HRow) (n i : Nat), i ∈ goodIdxFrom f n rows → n ≤ i := by
  intro rows
  induction rows with
  | nil =>
    intro n i hi
    simp [goodIdxFrom] at hi
  | cons r rs ih =>
    intro n i hi
    unfold goodIdxFrom at hi
    by_cases hg : goodVal (f r) = true
    · rw [if_pos hg] at hi
      rcases List.mem_cons.mp hi with h1 | h1
      · omega
      · have := ih (n + 1) i h1
        omega
    · rw [if_neg hg] at hi
      have := ih (n + 1) i hi
      omega

theorem goodIdxFrom_pairwise (f : HRow → Option ℚ) :
    ∀ (rows : List HRow) (n : Nat),
      List.Pairwise (fun a b => a < b) (goodIdxFrom f n rows) := by
  intro rows
  induction rows with
  | nil =>
    intro n
    simp [goodIdxFrom]
  | cons r rs ih =>
    intro n
    unfold goodIdxFrom
    by_cases hg : goodVal (f r) = true
    · rw [if_pos hg]
      refine List.Pairwise.cons ?_ (ih (n + 1))
      intro b hb
      have := goodIdxFrom_ge f rs (n + 1) b hb
      omega
    · rw [if_neg hg]
      exact ih (n + 1)

theorem goodIdxFrom_congr (f g : HRow → Option ℚ) :
    ∀ (rows : List HRow) (n : Nat),
      goodIdxFrom f n rows = goodIdxFrom g n rows →
      ∀ r ∈ rows, goodVal (f r) = goodVal (g r) := by
  intro rows
  induction rows with
  | nil =>
    intro n h x hx
    simp at hx
  | cons r rs ih =>
    intro n h x hx
    unfold goodIdxFrom at h
    by_cases hf : goodVal (f r) = true <;> by_cases hg : goodVal (g r) = true
    · rw [if_pos hf, if_pos hg] at h
      rcases List.mem_cons.mp hx with rfl | hxs
      · rw [hf, hg]
      · injection h with h1 h2
        exact ih (n + 1) h2 x hxs
    · rw [if_pos hf, if_neg hg] at h
      exfalso
      have hmem : n ∈ goodIdxFrom g (n + 1) rs := by
        rw [← h]
        exact List.mem_cons_self _ _
      have := goodIdxFrom_ge g rs (n + 1) n hmem
      omega
    · rw [if_neg hf, if_pos hg] at h
      exfalso
      have hmem : n ∈ goodIdxFrom f (n + 1) rs := by
        rw [h]
        exact List.mem_cons_self _ _
      have := goodIdxFrom_ge f rs (n + 1) n hmem
      omega
    · rw [if_neg hf, if_neg hg] at h
      rcases List.mem_cons.mp hx with rfl | hxs
      · simp only [Bool.not_eq_true] at hf hg
        rw [hf, hg]
      · exact ih (n + 1) h x hxs

theorem goodIdxFrom_lookup (f : HRow → Option ℚ) :
    ∀ (rows base : List HRow) (n : Nat),
      (∀ j, base.get? (n + j) = rows.get? j) →
      (goodIdxFrom f n rows).map (fun i => base.get? i)
        = (rows.filter (fun r => goodVal (f r))).map some := by
  intro rows
  induction rows with
  | nil =>
    intro base n hb
    rfl
  | cons r rs ih =>
    intro base n hb
    have h0 : base.get? n = some r := by
      have := hb 0
      simpa using this
    have hb' : ∀ j, base.get? (n + 1 + j) = rs.get? j := by
      intro j
      have hj := hb (j + 1)
      have harr : n + (j + 1) = n + 1 + j := by omega
      rw [harr] at hj
      simpa using hj
    unfold goodIdxFrom
    by_cases hg : goodVal (f r) = true
    · rw [if_pos hg, List.map_cons, h0, ih base (n + 1) hb',
        List.filter_cons, if_pos hg, List.map_cons]
    · rw [if_neg hg, ih base (n + 1) hb', List.filter_cons, if_neg hg]

theorem unionIdx_of_eq (f g : HRow → Option ℚ) (chunk : List HRow)
    (h : goodIdx f chunk = goodIdx g chunk) :
    unionIdx f g chunk = goodIdx f chunk := by
  unfold unionIdx
  rw [← h]
  have hndl : (goodIdx f chunk).Nodup :=
    (goodIdxFrom_pairwise f chunk 0).imp (fun hlt => ne_of_lt hlt)
  have hndd : ((goodIdx f chunk ++ goodIdx f chunk).dedup).Nodup :=
    List.nodup_dedup _
  have hperm2 : List.Perm ((goodIdx f chunk ++ goodIdx f chunk).dedup)
      (goodIdx f chunk) := by
    apply List.perm_of_nodup_nodup_toFinset_eq hndd hndl
    ext a
    simp [List.mem_dedup]
  have hsorted1 : List.Sorted (· ≤ ·)
      (List.insertionSort (· ≤ ·) ((goodIdx f chunk ++ goodIdx f chunk).dedup)) :=
    List.sorted_insertionSort _ _
  have hsorted2 : List.Sorted (· ≤ ·) (goodIdx f chunk) :=
    (goodIdxFrom_pairwise f chunk 0).imp (fun hlt => le_of_lt hlt)
  exact List.eq_of_perm_of_sorted
    ((List.perm_insertionSort _ _).trans hperm2) hsorted1 hsorted2

theorem aligned_joint (f g : HRow → Option ℚ) (c : ℚ) (chunk : List HRow)
    (h : goodIdx f chunk = goodIdx g chunk) :
    alignedResidual f g c chunk
      = (jointPairs f g chunk).map (fun p => some (p.1 - c * p.2)) := by
  have hgood := goodIdxFrom_congr f g chunk 0 h
  have hfeq : chunk.filter (fun r => goodVal (f r))
      = chunk.filter (fun r => goodVal (f r) && goodVal (g r)) := by
    apply List.filter_congr
    intro r hr
    have hrr := hgood r hr
    cases hfr : goodVal (f r) <;> cases hgr : goodVal (g r) <;> simp_all
  unfold alignedResidual
  rw [unionIdx_of_eq f g chunk h]
  have hmm : (goodIdx f chunk).map (fun i => residEntry f g c (chunk.get? i))
      = ((goodIdx f chunk).map (fun i => chunk.get? i)).map
          (residEntry f g c) := by
    rw [List.map_map]
    rfl
  rw [hmm]
  have hlk : (goodIdx f chunk).map (fun i => chunk.get? i)
      = (chunk.filter (fun r => goodVal (f r))).map some := by
    unfold goodIdx
    exact goodIdxFrom_lookup f chunk chunk 0 (fun j => by rw [Nat.zero_add])
  rw [hlk, List.map_map]
  unfold jointPairs
  rw [List.map_map, ← hfeq]
  apply map_congr_mem
  intro r hr
  have hrmem := List.mem_filter.mp hr
  have hfr : goodVal (f r) = true := hrmem.2
  have hgr : goodVal (g r) = true := by
    rw [← hgood r hrmem.1]
    exact hfr
  show residEntry f g c (some r) = some ((f r).getD 0 - c * (g r).getD 0)
  simp [residEntry, hfr, hgr]

theorem score_equiv (f g : HRow → Option ℚ) (chunk : List HRow) (c : ℚ)
    (h : goodIdx f chunk = goodIdx g chunk) :
    scoreCode f g chunk c = some (scoreAt f g chunk c) := by
  have hgood := goodIdxFrom_congr f g chunk 0 h
  have hal := aligned_joint f g c chunk h
  have hgeq : chunk.filter (fun r => goodVal (g r))
      = chunk.filter (fun r => goodVal (f r) && goodVal (g r)) := by
    apply List.filter_congr
    intro r hr
    have hrr := hgood r hr
    cases hfr : goodVal (f r) <;> cases hgr : goodVal (g r) <;> simp_all
  have hys : goodVals g chunk = (jointPairs f g chunk).map (fun p => p.2) := by
    unfold goodVals jointPairs
    rw [hgeq, List.map_map]
    rfl
  have hysl : (goodVals g chunk).length = (jointPairs f g chunk).length := by
    rw [hys, List.length_map]
  unfold scoreCode scoreAt
  rw [hal]
  by_cases hsmall : (jointPairs f g chunk).length ≤ 1
  · rw [if_pos (by rw [List.length_map]; exact hsmall), if_pos hsmall]
  · rw [if_neg (by rw [List.length_map]; exact hsmall), if_neg hsmall,
      if_neg (by rw [List.length_map, hysl]; exact fun hcon => hcon rfl),
      if_neg (by simp)]
    rw [List.map_map]
    rfl

/-- C3 as stated fails: on a regressable chunk whose two usable index sets
differ, the residual Series is NOT computed over the jointly usable rows —
index alignment yields a longer Series with a missing entry, and the score
computation is not a number (`np.corrcoef` is applied to operands of
different lengths). -/
theorem c3_counterexample :
    (3 ≤ uniqueDayCount c3X ∧ goodVals rawBrC c3X ≠ [] ∧
      goodVals refBrC c3X ≠ []) ∧
    ¬(alignedResidual rawBrC refBrC 0 c3X
        = (jointPairs rawBrC refBrC c3X).map (fun p => some (p.1 - 0 * p.2))) ∧
    scoreCode rawBrC refBrC c3X 0 = none := by
  refine ⟨by decide, ?_, by decide⟩
  intro hEq
  have h1 : (alignedResidual rawBrC refBrC 0 c3X).length = 3 := by decide
  have h2 : ((jointPairs rawBrC refBrC c3X).map
      (fun p => some (p.1 - 0 * p.2))).length = 2 := by decide
  rw [hEq] at h1
  omega

/-- C3 amended: the residual and score are computed over the two
independently filtered series aligned by row index; exactly when the two
usable index sets of the chunk coincide, this equals the computation over
the rows where BOTH series are simultaneously non-sentinel and non-missing,
and the score is 0 when fewer than 2 such rows exist. -/
theorem c3_amended (f g : HRow → Option ℚ) (chunk : List HRow) (c : ℚ)
    (h : goodIdx f chunk = goodIdx g chunk) :
    alignedResidual f g c chunk
      = (jointPairs f g chunk).map (fun p => some (p.1 - c * p.2)) ∧
    scoreCode f g chunk c = some (scoreAt f g chunk c) ∧
    ((jointPairs f g chunk).length ≤ 1 → scoreAt f g chunk c = 0) :=
  ⟨aligned_joint f g c chunk h, score_equiv f g chunk c h,
   fun hs => by
    unfold scoreAt
    rw [if_pos hs]⟩

/-- Witness for the amended C3 on a chunk with coincident usable sets. -/
theorem c3_witness :
    goodIdx rawBrC c3W = goodIdx refBrC c3W ∧
    (alignedResidual rawBrC refBrC (3 / 10) c3W
      = (jointPairs rawBrC refBrC c3W).map
          (fun p => some (p.1 - (3 / 10) * p.2)) ∧
     scoreCode rawBrC refBrC c3W (3 / 10)
        = some (scoreAt rawBrC refBrC c3W (3 / 10)) ∧
     ((jointPairs rawBrC refBrC c3W).length ≤ 1 →
        scoreAt rawBrC refBrC c3W (3 / 10) = 0)) :=
  ⟨by decide, c3_amended rawBrC refBrC c3W (3 / 10) (by decide)⟩

/-- C1 amended: for every regressable chunk whose two usable index sets
coincide — the regime in which the program's pandas-aligned score is a
number, equal to the joint-filter score at every candidate — each regression
instance evaluates the score at every candidate of its grid (101 candidates
0.0..10.0 step 0.1 for the organic-carbon instance, 61 candidates 0.0..6.0
step 0.1 for the brown-carbon instance) and selects a candidate minimising
the score; when several candidates tie at the minimum, the smallest
candidate is selected. -/
theorem c1_amended :
    (gridQ 101).length = 101 ∧ (gridQ 61).length = 61 ∧
    (∀ i, i < 101 → (gridQ 101).getD i 0 = (i : ℚ) / 10) ∧
    (∀ i, i < 61 → (gridQ 61).getD i 0 = (i : ℚ) / 10) ∧
    (∀ chunk : List HRow, 3 ≤ uniqueDayCount chunk →
      goodVals rawSOC chunk ≠ [] → goodVals refSOC chunk ≠ [] →
      goodIdx rawSOC chunk = goodIdx refSOC chunk →
      (∀ x : ℚ, scoreCode rawSOC refSOC chunk x
        = some (scoreAt rawSOC refSOC chunk x)) ∧
      ∃ c, chunkCoeff rawSOC refSOC (gridQ 101) chunk = some c ∧
        c ∈ gridQ 101 ∧
        (∀ x ∈ gridQ 101,
          scoreAt rawSOC refSOC chunk c ≤ scoreAt rawSOC refSOC chunk x) ∧
        (∀ x ∈ gridQ 101,
          scoreAt rawSOC refSOC chunk x = scoreAt rawSOC refSOC chunk c →
            c ≤ x)) ∧
    (∀ chunk : List HRow, 3 ≤ uniqueDayCount chunk →
      goodVals rawBrC chunk ≠ [] → goodVals refBrC chunk ≠ [] →
      goodIdx rawBrC chunk = goodIdx refBrC chunk →
      (∀ x : ℚ, scoreCode rawBrC refBrC chunk x
        = some (scoreAt rawBrC refBrC chunk x)) ∧
      ∃ c, chunkCoeff rawBrC refBrC (gridQ 61) chunk = some c ∧
        c ∈ gridQ 61 ∧
        (∀ x ∈ gridQ 61,
          scoreAt rawBrC refBrC chunk c ≤ scoreAt rawBrC refBrC chunk x) ∧
        (∀ x ∈ gridQ 61,
          scoreAt rawBrC refBrC chunk x = scoreAt rawBrC refBrC chunk c →
            c ≤ x)) := by
  refine ⟨gridQ_length 101, gridQ_length 61,
    fun i h => gridQ_getD 101 i h, fun i h => gridQ_getD 61 i h, ?_, ?_⟩
  · intro chunk hd hf hg hidx
    exact ⟨fun x => score_equiv rawSOC refSOC chunk x hidx,
      coeff_minimal rawSOC refSOC 101 (by omega) chunk hd hf hg⟩
  · intro chunk hd hf hg hidx
    exact ⟨fun x => score_equiv rawBrC refBrC chunk x hidx,
      coeff_minimal rawBrC refBrC 61 (by omega) chunk hd hf hg⟩

/-- Witness for the amended C1 at a concrete regressable 3-day chunk with
coincident usable index sets. -/
theorem c1_witness :
    (3 ≤ uniqueDayCount c1W ∧ goodVals rawSOC c1W ≠ [] ∧
      goodVals refSOC c1W ≠ [] ∧
      goodIdx rawSOC c1W = goodIdx refSOC c1W ∧
      goodVals rawBrC c1W ≠ [] ∧ goodVals refBrC c1W ≠ [] ∧
      goodIdx rawBrC c1W = goodIdx refBrC c1W) ∧
    ((∀ x : ℚ, scoreCode rawSOC refSOC c1W x
        = some (scoreAt rawSOC refSOC c1W x)) ∧
      ∃ c, chunkCoeff rawSOC refSOC (gridQ 101) c1W = some c ∧
        c ∈ gridQ 101 ∧
        (∀ x ∈ gridQ 101,
          scoreAt rawSOC refSOC c1W c ≤ scoreAt rawSOC refSOC c1W x) ∧
        (∀ x ∈ gridQ 101,
          scoreAt rawSOC refSOC c1W x = scoreAt rawSOC refSOC c1W c →
            c ≤ x)) ∧
    ((∀ x : ℚ, scoreCode rawBrC refBrC c1W x
        = some (scoreAt rawBrC refBrC c1W x)) ∧
      ∃ c, chunkCoeff rawBrC refBrC (gridQ 61) c1W = some c ∧
        c ∈ gridQ 61 ∧
        (∀ x ∈ gridQ 61,
          scoreAt rawBrC refBrC c1W c ≤ scoreAt rawBrC refBrC c1W x) ∧
        (∀ x ∈ gridQ 61,
          scoreAt rawBrC refBrC c1W x = scoreAt rawBrC refBrC c1W c →
            c ≤ x)) :=
  ⟨by decide,
   c1_amended.2.2.2.2.1 c1W (by decide) (by decide) (by decide) (by decide),
   c1_amended.2.2.2.2.2 c1W (by decide) (by decide) (by decide) (by decide)⟩

end Cass
